import Mathlib

/-!
Shallow embedding of the betting-market backend (`src/main.py`, with the
declared collection schemas in `src/schemas.py`).

Modelling conventions:
* MongoDB document ids (`_id` / the strings produced by `oid`) are modelled as
  `Nat`; `oid` parsing is the identity on these ids, so `InvalidIdFormat` never
  arises in the model.
* Timestamps (`datetime.now(timezone.utc)`) are modelled by a logical clock
  `now : Nat` carried in the store.
* Python floats are modelled as rationals `ℚ`; `round(x, 2)` is round half to
  even at two decimal places, which is Python's rounding mode at this level.
* Outcome dicts in a market payload are arbitrary JSON objects; the endpoint
  only checks presence of the `key`, `label`, `odds` fields.  The model keeps
  each of the three fields as an `Option` (present or absent) and lets the
  `odds` value range over numbers and `null` (`Value`), since `float(None)` /
  `float(null-valued field)` raises an unhandled `TypeError` in the code.
* Each collection is an association list `List (Nat × doc)`; MongoDB `_id`s
  are unique per collection, so `update_one` filtered on `_id` is modelled as
  a pointwise map over the pairs carrying the targeted id.
* An endpoint that raises `HTTPException` before any write returns `.error e`
  and, in the transition system `step`, leaves the store unchanged.
-/

namespace Betting

/-- A JSON value usable as the `odds` field of an outcome dict: a number or
`null`.  (The claims under study only require these two shapes.) -/
inductive Value where
  | num (q : ℚ)
  | vNull
  deriving DecidableEq, Repr

/-- Python `float(v)` on a `Value`: a number converts, `float(None)` raises a
`TypeError`, modelled as `none`. -/
def Value.toFloat : Value → Option ℚ
  | .num q => some q
  | .vNull => none

/-- An outcome dict inside a market payload / stored market.  Every field is
optional because `create_market` only checks presence (`{"key","label","odds"}
⊆ o.keys()`), not types or values. -/
structure OutcomeDoc where
  key : Option String
  label : Option String
  odds : Option Value
  deriving DecidableEq, Repr

/-- `{"key", "label", "odds"}.issubset(o.keys())` from `create_market`. -/
def outcomeComplete (o : OutcomeDoc) : Bool :=
  o.key.isSome && o.label.isSome && o.odds.isSome

/-- A stored market document, as built by `create_market` and mutated by
`settle_market`. -/
structure MarketDoc where
  game_type : String
  title : String
  outcomes : List OutcomeDoc
  status : String
  start_time : Option Nat
  created_at : Nat
  settled_outcome_key : Option String
  settled_at : Option Nat
  deriving DecidableEq, Repr

/-- A stored bet document, as built by `place_bet` and mutated by
`settle_market`. -/
structure BetDoc where
  user_id : Nat
  market_id : Nat
  outcome_key : String
  stake : ℚ
  odds : ℚ
  potential_payout : ℚ
  status : String
  placed_at : Nat
  updated_at : Option Nat
  deriving DecidableEq, Repr

/-- The persistence state: the three collections touched by the core
endpoints, a fresh-id counter, and the logical clock. -/
structure Store where
  markets : List (Nat × MarketDoc)
  bets : List (Nat × BetDoc)
  users : List Nat
  nextId : Nat
  now : Nat
  deriving DecidableEq, Repr

/-- Request body of `POST /api/markets` (`CreateMarket` in `main.py`). -/
structure CreateMarket where
  game_type : String
  title : String
  outcomes : List OutcomeDoc
  start_time : Option Nat
  deriving DecidableEq, Repr

/-- Request body of `POST /api/bets` (`PlaceBet` in `main.py`). -/
structure PlaceBet where
  user_id : Nat
  market_id : Nat
  outcome_key : String
  stake : ℚ
  deriving DecidableEq, Repr

/-- The outcomes of the endpoints that fail: the `HTTPException`s raised in
`main.py`, plus `conversionError` for the unhandled `TypeError` escaping from
`float(...)` in `place_bet` (which is *not* an `HTTPException`). -/
inductive ApiError where
  | invalidGameType
  | outcomesRequired
  | incompleteOutcome
  | marketNotFound
  | marketNotOpen
  | invalidOutcome
  | userNotFound
  | conversionError
  deriving DecidableEq, Repr

/-- Whether an error is one of the handled `HTTPException`s of the endpoint
code (4xx responses); the unhandled `TypeError` from `float` is not. -/
def ApiError.isHandled : ApiError → Bool
  | .conversionError => false
  | _ => true

/-- Round half to even to the nearest integer (Python `round(x)` semantics at
the rational level). -/
def roundHalfEven (x : ℚ) : ℤ :=
  let f : ℤ := ⌊x⌋
  let r : ℚ := x - f
  if r < 1/2 then f
  else if 1/2 < r then f + 1
  else if f % 2 = 0 then f else f + 1

/-- Python `round(x, 2)` at the rational level. -/
def round2 (x : ℚ) : ℚ :=
  (roundHalfEven (x * 100) : ℚ) / 100

/-- `POST /api/users` (`create_user` in `main.py`): inserts a user document
and returns its id.  Only the user's existence matters to the core. -/
def create_user (s : Store) : Nat × Store :=
  (s.nextId, { s with users := s.users ++ [s.nextId], nextId := s.nextId + 1 })

/-- `POST /api/markets` (`create_market` in `main.py`): validates game_type,
non-emptiness of `outcomes`, and per-outcome presence of `key`/`label`/`odds`,
then persists the market with `status = "open"`. -/
def create_market (s : Store) (p : CreateMarket) : Except ApiError (Nat × Store) :=
  if p.game_type ∉ (["cricket", "matka", "other"] : List String) then
    .error .invalidGameType
  else if p.outcomes.isEmpty then
    .error .outcomesRequired
  else if p.outcomes.any (fun o => !(outcomeComplete o)) then
    .error .incompleteOutcome
  else
    let market : MarketDoc :=
      { game_type := p.game_type
        title := p.title
        outcomes := p.outcomes
        status := "open"
        start_time := p.start_time
        created_at := s.now
        settled_outcome_key := none
        settled_at := none }
    .ok (s.nextId,
      { s with markets := s.markets ++ [(s.nextId, market)], nextId := s.nextId + 1 })

/-- `POST /api/bets` (`place_bet` in `main.py`), in the source's check order:
market exists, market open, outcome key resolves, user exists; then
`potential = round(stake * float(outcome.get("odds", 1.0)), 2)` and
`odds = float(outcome.get("odds"))` — either `float` call raises an unhandled
`TypeError` when the odds value is not numeric — and the bet is persisted with
`status = "pending"`. -/
def place_bet (s : Store) (p : PlaceBet) : Except ApiError (Nat × Store) :=
  match s.markets.lookup p.market_id with
  | none => .error .marketNotFound
  | some market =>
    if market.status ≠ "open" then .error .marketNotOpen
    else
      match market.outcomes.find? (fun o => o.key == some p.outcome_key) with
      | none => .error .invalidOutcome
      | some outcome =>
        if ¬ s.users.contains p.user_id then .error .userNotFound
        else
          match (outcome.odds.getD (.num 1)).toFloat with
          | none => .error .conversionError
          | some oddsForPayout =>
            match outcome.odds with
            | none => .error .conversionError
            | some ov =>
              match ov.toFloat with
              | none => .error .conversionError
              | some oddsSnapshot =>
                let bet : BetDoc :=
                  { user_id := p.user_id
                    market_id := p.market_id
                    outcome_key := p.outcome_key
                    stake := p.stake
                    odds := oddsSnapshot
                    potential_payout := round2 (p.stake * oddsForPayout)
                    status := "pending"
                    placed_at := s.now
                    updated_at := none }
                .ok (s.nextId,
                  { s with bets := s.bets ++ [(s.nextId, bet)], nextId := s.nextId + 1 })

/-- The per-bet settlement update from the loop in `settle_market`:
`new_status = "won" if b["outcome_key"] == winning_key else "lost"`, and
`updated_at` set to the settlement time. -/
def resolveBetDoc (winning : String) (t : Nat) (b : BetDoc) : BetDoc :=
  { b with status := if b.outcome_key = winning then "won" else "lost"
           updated_at := some t }

/-- `POST /api/markets/{market_id}/settle` (`settle_market` in `main.py`):
market exists, market open; then the market is updated to
`status = "settled"` with `settled_outcome_key` and `settled_at`, and every
bet whose `market_id` matches is updated via `resolveBetDoc`. -/
def settle_market (s : Store) (market_id : Nat) (winning : String) :
    Except ApiError Store :=
  match s.markets.lookup market_id with
  | none => .error .marketNotFound
  | some market =>
    if market.status ≠ "open" then .error .marketNotOpen
    else
      let market' : MarketDoc :=
        { market with status := "settled"
                      settled_outcome_key := some winning
                      settled_at := some s.now }
      .ok { s with
        markets := s.markets.map (fun q => if q.1 = market_id then (q.1, market') else q)
        bets := s.bets.map (fun q =>
          if q.2.market_id = market_id then (q.1, resolveBetDoc winning s.now q.2) else q) }

/-- A core operation, as issued through the transport layer. -/
inductive Op where
  | createUser
  | createMarket (p : CreateMarket)
  | placeBet (p : PlaceBet)
  | settleMarket (market_id : Nat) (winning : String)
  | tick
  deriving DecidableEq, Repr

/-- One request against the store.  An endpoint that raises leaves the store
unchanged (all `HTTPException`s in the code are raised before any write). -/
def step (s : Store) : Op → Store
  | .createUser => (create_user s).2
  | .createMarket p =>
    match create_market s p with
    | .ok r => r.2
    | .error _ => s
  | .placeBet p =>
    match place_bet s p with
    | .ok r => r.2
    | .error _ => s
  | .settleMarket mid key =>
    match settle_market s mid key with
    | .ok s' => s'
    | .error _ => s
  | .tick => { s with now := s.now + 1 }

/-- The `odds` constraint declared on `Outcome` in `src/schemas.py`
(`Field(..., gt=1.0)`): the field must be present, numeric and `> 1.0`. -/
def oddsSchemaOk (v : Option Value) : Prop :=
  match v with
  | some (.num q) => 1 < q
  | _ => False

/-- The `stake` constraint declared on `Bet` in `src/schemas.py`
(`Field(..., gt=0)`). -/
def stakeSchemaOk (q : ℚ) : Prop := 0 < q

/-! ### Association-list lookup lemmas -/

theorem lookup_cons_eq_ite {β : Type} (a : Nat) (b : β) (l : List (Nat × β)) (j : Nat) :
    ((a, b) :: l).lookup j = if j = a then some b else l.lookup j := by
  simp [List.lookup]
  split <;> simp_all

theorem lookup_map_update_ne {β : Type} (l : List (Nat × β)) (v : β) (k j : Nat)
    (h : j ≠ k) :
    (l.map fun q => if q.1 = k then (q.1, v) else q).lookup j = l.lookup j := by
  induction l with
  | nil => rfl
  | cons hd t ih =>
    obtain ⟨i, a⟩ := hd
    by_cases hik : i = k
    · subst hik
      simp only [List.map_cons, if_pos rfl, if_true, lookup_cons_eq_ite, if_neg h, ih]
    · simp only [List.map_cons, if_neg hik, lookup_cons_eq_ite, ih]

theorem lookup_map_update_self {β : Type} (l : List (Nat × β)) (v : β) (k : Nat) :
    (l.map fun q => if q.1 = k then (q.1, v) else q).lookup k
      = (l.lookup k).map (fun _ => v) := by
  induction l with
  | nil => rfl
  | cons hd t ih =>
    obtain ⟨i, a⟩ := hd
    by_cases hik : i = k
    · subst hik
      simp only [List.map_cons, if_pos rfl, if_true, lookup_cons_eq_ite, Option.map_some']
    · have hki : k ≠ i := fun hc => hik hc.symm
      simp only [List.map_cons, if_neg hik, lookup_cons_eq_ite, if_neg hki, ih]

theorem lookup_append_left {β : Type} (l l' : List (Nat × β)) (j : Nat) (v : β)
    (h : l.lookup j = some v) : (l ++ l').lookup j = some v := by
  induction l with
  | nil => simp [List.lookup] at h
  | cons hd t ih =>
    obtain ⟨i, a⟩ := hd
    by_cases hj : j = i
    · rw [lookup_cons_eq_ite, if_pos hj] at h
      rw [List.cons_append, lookup_cons_eq_ite, if_pos hj]
      exact h
    · rw [lookup_cons_eq_ite, if_neg hj] at h
      rw [List.cons_append, lookup_cons_eq_ite, if_neg hj]
      exact ih h

/-! ### Inversion lemmas for successful endpoint calls -/

theorem create_market_ok_elim {s : Store} {p : CreateMarket} {mid : Nat} {s' : Store}
    (h : create_market s p = .ok (mid, s')) :
    mid = s.nextId ∧
    s'.markets = s.markets ++ [(mid,
      { game_type := p.game_type, title := p.title, outcomes := p.outcomes,
        status := "open", start_time := p.start_time, created_at := s.now,
        settled_outcome_key := none, settled_at := none })] ∧
    s'.bets = s.bets ∧ s'.users = s.users ∧ s'.nextId = s.nextId + 1 ∧ s'.now = s.now := by
  unfold create_market at h
  split at h
  · exact Except.noConfusion h
  split at h
  · exact Except.noConfusion h
  split at h
  · exact Except.noConfusion h
  simp only [Except.ok.injEq, Prod.mk.injEq] at h
  obtain ⟨hmid, hs⟩ := h
  subst hmid
  subst hs
  exact ⟨rfl, rfl, rfl, rfl, rfl, rfl⟩

theorem place_bet_ok_elim {s : Store} {p : PlaceBet} {bid : Nat} {s' : Store}
    (h : place_bet s p = .ok (bid, s')) :
    bid = s.nextId ∧
    ∃ (market : MarketDoc) (outcome : OutcomeDoc) (q : ℚ),
      s.markets.lookup p.market_id = some market ∧
      market.status = "open" ∧
      market.outcomes.find? (fun o => o.key == some p.outcome_key) = some outcome ∧
      outcome.odds = some (.num q) ∧
      s.users.contains p.user_id = true ∧
      s'.markets = s.markets ∧ s'.users = s.users ∧ s'.nextId = s.nextId + 1 ∧
      s'.now = s.now ∧
      s'.bets = s.bets ++ [(bid,
        { user_id := p.user_id, market_id := p.market_id, outcome_key := p.outcome_key,
          stake := p.stake, odds := q, potential_payout := round2 (p.stake * q),
          status := "pending", placed_at := s.now, updated_at := none })] := by
  unfold place_bet at h
  split at h
  · exact Except.noConfusion h
  next market hm =>
  split at h
  · exact Except.noConfusion h
  next hst =>
  split at h
  · exact Except.noConfusion h
  next outcome hf =>
  split at h
  · exact Except.noConfusion h
  next hu =>
  split at h
  · exact Except.noConfusion h
  next oddsP hP =>
  split at h
  · exact Except.noConfusion h
  next ov ho =>
  split at h
  · exact Except.noConfusion h
  next oddsS hS =>
  rcases ov with q | _
  · rw [ho, Option.getD_some] at hP
    simp only [Value.toFloat, Option.some.injEq] at hP hS
    subst hP
    subst hS
    simp only [Except.ok.injEq, Prod.mk.injEq] at h
    obtain ⟨hbid, hs⟩ := h
    subst hbid
    subst hs
    exact ⟨rfl, market, outcome, q, hm, not_not.mp hst, hf, ho, not_not.mp hu,
      rfl, rfl, rfl, rfl, rfl⟩
  · simp only [Value.toFloat] at hS
    exact Option.noConfusion hS

theorem settle_market_ok_elim {s : Store} {mid : Nat} {key : String} {s' : Store}
    (h : settle_market s mid key = .ok s') :
    ∃ market : MarketDoc,
      s.markets.lookup mid = some market ∧ market.status = "open" ∧
      s'.markets = s.markets.map (fun q => if q.1 = mid then
        (q.1, { market with
                  status := "settled"
                  settled_outcome_key := some key
                  settled_at := some s.now }) else q) ∧
      s'.bets = s.bets.map (fun q => if q.2.market_id = mid then
        (q.1, resolveBetDoc key s.now q.2) else q) ∧
      s'.users = s.users ∧ s'.nextId = s.nextId ∧ s'.now = s.now := by
  unfold settle_market at h
  split at h
  · exact Except.noConfusion h
  next market hm =>
  split at h
  · exact Except.noConfusion h
  next hst =>
  simp only [Except.ok.injEq] at h
  subst h
  exact ⟨market, hm, not_not.mp hst, rfl, rfl, rfl, rfl, rfl⟩

theorem settle_market_not_open {s : Store} {mid : Nat} {key : String} {m : MarketDoc}
    (hm : s.markets.lookup mid = some m) (hst : m.status ≠ "open") :
    settle_market s mid key = .error .marketNotOpen := by
  unfold settle_market
  rw [hm]
  simp [hst]

theorem place_bet_not_open {s : Store} {p : PlaceBet} {m : MarketDoc}
    (hm : s.markets.lookup p.market_id = some m) (hst : m.status ≠ "open") :
    place_bet s p = .error .marketNotOpen := by
  unfold place_bet
  rw [hm]
  simp [hst]

/-! ### Concrete fixtures for witnesses and counterexamples -/

def outcomeA : OutcomeDoc :=
  { key := some "A", label := some "Team A", odds := some (.num (9/5)) }

def outcomeB : OutcomeDoc :=
  { key := some "B", label := some "Team B", odds := some (.num 2) }

def marketAB : MarketDoc :=
  { game_type := "cricket"
    title := "A vs B"
    outcomes := [outcomeA, outcomeB]
    status := "open"
    start_time := none
    created_at := 0
    settled_outcome_key := none
    settled_at := none }

def marketOther : MarketDoc := { marketAB with title := "C vs D" }

def betOnA : BetDoc :=
  { user_id := 0
    market_id := 1
    outcome_key := "A"
    stake := 100
    odds := 9/5
    potential_payout := 180
    status := "pending"
    placed_at := 0
    updated_at := none }

def betOnB : BetDoc :=
  { betOnA with outcome_key := "B", stake := 50, odds := 2, potential_payout := 100 }

def betElsewhere : BetDoc := { betOnA with market_id := 2 }

def storeTwoMarkets : Store :=
  { markets := [(1, marketAB), (2, marketOther)]
    bets := [(3, betOnA), (4, betOnB), (5, betElsewhere)]
    users := [0]
    nextId := 6
    now := 9 }

def settledMarketAB : MarketDoc :=
  { marketAB with status := "settled", settled_outcome_key := some "A", settled_at := some 0 }

def storeSettled : Store :=
  { storeTwoMarkets with markets := [(1, settledMarketAB), (2, marketOther)] }

def emptyStore : Store := { markets := [], bets := [], users := [], nextId := 0, now := 0 }

def storeOneUser : Store := { emptyStore with users := [0], nextId := 1 }

def marketInputAB : CreateMarket :=
  { game_type := "cricket", title := "A vs B", outcomes := [outcomeA, outcomeB],
    start_time := none }

def storeAfterSettle : Store :=
  match settle_market storeTwoMarkets 1 "A" with
  | .ok s' => s'
  | .error _ => storeTwoMarkets

def storeAfterCreate : Store :=
  match create_market emptyStore marketInputAB with
  | .ok r => r.2
  | .error _ => emptyStore

def negStakeRequest : PlaceBet :=
  { user_id := 0, market_id := 1, outcome_key := "A", stake := -5 }

def betRequestA : PlaceBet :=
  { user_id := 0, market_id := 1, outcome_key := "A", stake := 100 }

def storeAfterBetA : Store :=
  match place_bet storeTwoMarkets betRequestA with
  | .ok r => r.2
  | .error _ => storeTwoMarkets

def dupKeyInput : CreateMarket :=
  { game_type := "cricket"
    title := "duplicated keys"
    outcomes := [{ key := some "A", label := some "first", odds := some (.num 2) },
                 { key := some "A", label := some "second", odds := some (.num 3) }]
    start_time := none }

def storeAfterDup : Store :=
  match create_market emptyStore dupKeyInput with
  | .ok r => r.2
  | .error _ => emptyStore

def lowOddsOutcome : OutcomeDoc :=
  { key := some "A", label := some "Team A", odds := some (.num (1/2)) }

def lowOddsInput : CreateMarket :=
  { game_type := "cricket", title := "low odds", outcomes := [lowOddsOutcome],
    start_time := none }

def storeAfterLowOdds : Store :=
  match create_market emptyStore lowOddsInput with
  | .ok r => r.2
  | .error _ => emptyStore

def nullOddsOutcome : OutcomeDoc :=
  { key := some "x", label := some "X", odds := some .vNull }

def nullOddsInput : CreateMarket :=
  { game_type := "matka", title := "draw", outcomes := [nullOddsOutcome],
    start_time := none }

def storeNullMarket : Store :=
  match create_market storeOneUser nullOddsInput with
  | .ok r => r.2
  | .error _ => storeOneUser

def storeAfterNegStake : Store :=
  match place_bet storeTwoMarkets negStakeRequest with
  | .ok r => r.2
  | .error _ => storeTwoMarkets

/-! ### Claim theorems -/

/-- C1: for every settlement of an open market with winning key `key`, every
bet whose `market_id` equals that market's id and whose `outcome_key` equals
`key` has its status set to `"won"`, every other bet on that market is set to
`"lost"` (with `updated_at` stamped), and bets referring to a different
market are left unchanged. -/
theorem settle_resolves_bets_exactly (s : Store) (mid : Nat) (key : String) (s' : Store)
    (h : settle_market s mid key = .ok s') :
    s'.bets = s.bets.map (fun q =>
      if q.2.market_id = mid then
        (q.1, { q.2 with
                  status := if q.2.outcome_key = key then "won" else "lost"
                  updated_at := some s.now })
      else q) := by
  obtain ⟨m, _, _, _, hb, _, _, _⟩ := settle_market_ok_elim h
  simpa [resolveBetDoc] using hb

/-- Witness for C1 at a concrete store: market 1 is settled with key "A"; the
bet on "A" wins, the bet on "B" loses, the bet on market 2 is untouched. -/
theorem settle_resolves_bets_exactly_witness :
    storeAfterSettle.bets = storeTwoMarkets.bets.map (fun q =>
      if q.2.market_id = 1 then
        (q.1, { q.2 with
                  status := if q.2.outcome_key = "A" then "won" else "lost"
                  updated_at := some storeTwoMarkets.now })
      else q) :=
  settle_resolves_bets_exactly storeTwoMarkets 1 "A" storeAfterSettle (by rfl)

/-- C2: a settlement request against a market whose status is not `"open"`
fails with `MarketNotOpen`, and the whole store (markets and bets alike) is
left unchanged. -/
theorem settle_not_open_rejected (s : Store) (mid : Nat) (key : String) (m : MarketDoc)
    (hm : s.markets.lookup mid = some m) (hst : m.status ≠ "open") :
    settle_market s mid key = .error .marketNotOpen ∧
      step s (.settleMarket mid key) = s := by
  have h1 : settle_market s mid key = .error .marketNotOpen :=
    settle_market_not_open hm hst
  exact ⟨h1, by simp [step, h1]⟩

/-- Witness for C2: settling the already-settled market 1 again fails and
changes nothing. -/
theorem settle_not_open_rejected_witness :
    settle_market storeSettled 1 "Z" = .error .marketNotOpen ∧
      step storeSettled (.settleMarket 1 "Z") = storeSettled :=
  settle_not_open_rejected storeSettled 1 "Z" settledMarketAB (by rfl) (by decide)

/-- C3 (code behavior at the failing input): the bet handler performs no
stake-positivity check, so a request with stake `-5` against an open market,
a valid outcome and an existing user succeeds and persists a pending bet
whose stake violates the `gt=0` constraint declared on `Bet` in
`schemas.py`. -/
theorem place_bet_accepts_nonpositive_stake :
    place_bet storeTwoMarkets negStakeRequest = .ok (6, storeAfterNegStake) ∧
    ∃ b : BetDoc, storeAfterNegStake.bets = storeTwoMarkets.bets ++ [(6, b)] ∧
      b.stake = -5 ∧ ¬ stakeSchemaOk b.stake ∧ b.status = "pending" := by
  have h : place_bet storeTwoMarkets negStakeRequest = .ok (6, storeAfterNegStake) := by rfl
  refine ⟨h, ?_⟩
  obtain ⟨-, _, _, _, -, -, -, -, -, -, -, -, -, hb⟩ := place_bet_ok_elim h
  refine ⟨_, hb, rfl, ?_, rfl⟩
  simp only [stakeSchemaOk, negStakeRequest]
  norm_num

/-- C4: placing a bet against an existing market whose status is not
`"open"` fails with `MarketNotOpen` for every request payload, in particular
regardless of whether `outcome_key` is valid for that market. -/
theorem place_bet_not_open_rejected (s : Store) (p : PlaceBet) (m : MarketDoc)
    (hm : s.markets.lookup p.market_id = some m) (hst : m.status ≠ "open") :
    place_bet s p = .error .marketNotOpen :=
  place_bet_not_open hm hst

/-- Witness for C4: betting on the settled market 1 with the (valid) outcome
key "A" fails with `MarketNotOpen`. -/
theorem place_bet_not_open_rejected_witness :
    place_bet storeSettled { user_id := 0, market_id := 1, outcome_key := "A", stake := 5 }
      = .error .marketNotOpen :=
  place_bet_not_open_rejected storeSettled
    { user_id := 0, market_id := 1, outcome_key := "A", stake := 5 }
    settledMarketAB (by rfl) (by decide)

/-- C5: market status is monotonic.  A market is persisted by `create_market`
with status `"open"`, and once a market's status is `"settled"`, no core
operation (user creation, market creation, bet placement, settlement, or a
clock tick) changes its status. -/
theorem market_status_monotonic :
    (∀ (s : Store) (p : CreateMarket) (mid : Nat) (s' : Store),
        create_market s p = .ok (mid, s') →
        ∃ m : MarketDoc, s'.markets = s.markets ++ [(mid, m)] ∧ m.status = "open") ∧
    (∀ (s : Store) (op : Op) (mid : Nat) (m : MarketDoc),
        s.markets.lookup mid = some m → m.status = "settled" →
        ∃ m' : MarketDoc, (step s op).markets.lookup mid = some m' ∧
          m'.status = "settled") := by
  constructor
  · intro s p mid s' h
    obtain ⟨-, hmk, -, -, -, -⟩ := create_market_ok_elim h
    exact ⟨_, hmk, rfl⟩
  · intro s op mid m hm hst
    cases op with
    | createUser => exact ⟨m, hm, hst⟩
    | tick => exact ⟨m, hm, hst⟩
    | createMarket p =>
      cases hc : create_market s p with
      | error e => exact ⟨m, by simp only [step, hc]; exact hm, hst⟩
      | ok r =>
        obtain ⟨bid, s'⟩ := r
        obtain ⟨-, hmk, -, -, -, -⟩ := create_market_ok_elim hc
        refine ⟨m, ?_, hst⟩
        simp only [step, hc, hmk]
        exact lookup_append_left _ _ _ _ hm
    | placeBet p =>
      cases hc : place_bet s p with
      | error e => exact ⟨m, by simp only [step, hc]; exact hm, hst⟩
      | ok r =>
        obtain ⟨bid, s'⟩ := r
        obtain ⟨-, _, _, _, -, -, -, -, -, hmk, -, -, -, -⟩ := place_bet_ok_elim hc
        refine ⟨m, ?_, hst⟩
        simp only [step, hc, hmk]
        exact hm
    | settleMarket mid' key =>
      cases hc : settle_market s mid' key with
      | error e => exact ⟨m, by simp only [step, hc]; exact hm, hst⟩
      | ok s' =>
        obtain ⟨market, hm', hopen, hmk, -, -, -, -⟩ := settle_market_ok_elim hc
        by_cases he : mid = mid'
        · subst he
          rw [hm] at hm'
          injection hm' with hmm
          rw [← hmm, hst] at hopen
          exact absurd hopen (by decide)
        · refine ⟨m, ?_, hst⟩
          simp only [step, hc, hmk]
          rw [lookup_map_update_ne _ _ _ _ he]
          exact hm

/-- Witness for C5: part one applied to a concrete market creation, part two
applied to a settlement request against the already-settled market 1. -/
theorem market_status_monotonic_witness :
    (∃ m : MarketDoc, storeAfterCreate.markets = emptyStore.markets ++ [(0, m)] ∧
      m.status = "open") ∧
    (∃ m' : MarketDoc,
      (step storeSettled (.settleMarket 1 "B")).markets.lookup 1 = some m' ∧
      m'.status = "settled") :=
  ⟨market_status_monotonic.1 emptyStore marketInputAB 0 storeAfterCreate (by rfl),
   market_status_monotonic.2 storeSettled (.settleMarket 1 "B") 1 settledMarketAB
     (by rfl) (by rfl)⟩

/-- C6: a successfully placed bet is appended with `stake` equal to the
request's stake, `odds` snapshotted from the chosen outcome of the market at
placement time, and `potential_payout = round2 (stake * odds)`; and no
operation ever changes a stored bet's `stake`, `odds` or `potential_payout`
(settlement only touches `status` and `updated_at`). -/
theorem payout_snapshot_and_immutable :
    (∀ (s : Store) (p : PlaceBet) (bid : Nat) (s' : Store),
        place_bet s p = .ok (bid, s') →
        ∃ (b : BetDoc) (market : MarketDoc) (outcome : OutcomeDoc),
          s'.bets = s.bets ++ [(bid, b)] ∧
          s.markets.lookup p.market_id = some market ∧
          market.outcomes.find? (fun o => o.key == some p.outcome_key) = some outcome ∧
          outcome.odds = some (.num b.odds) ∧
          b.stake = p.stake ∧
          b.potential_payout = round2 (b.stake * b.odds)) ∧
    (∀ (s : Store) (op : Op), ∀ q ∈ s.bets,
        ∃ b' : BetDoc, ((q : Nat × BetDoc).1, b') ∈ (step s op).bets ∧
          b'.stake = q.2.stake ∧ b'.odds = q.2.odds ∧
          b'.potential_payout = q.2.potential_payout) := by
  constructor
  · intro s p bid s' h
    obtain ⟨-, market, outcome, oq, hm, -, hf, ho, -, -, -, -, -, hb⟩ := place_bet_ok_elim h
    exact ⟨_, market, outcome, hb, hm, hf, ho, rfl, rfl⟩
  · intro s op q hq
    cases op with
    | createUser => exact ⟨q.2, hq, rfl, rfl, rfl⟩
    | tick => exact ⟨q.2, hq, rfl, rfl, rfl⟩
    | createMarket p =>
      cases hc : create_market s p with
      | error e => exact ⟨q.2, by simp only [step, hc]; exact hq, rfl, rfl, rfl⟩
      | ok r =>
        obtain ⟨bid, s'⟩ := r
        obtain ⟨-, -, hbets, -, -, -⟩ := create_market_ok_elim hc
        exact ⟨q.2, by simp only [step, hc, hbets]; exact hq, rfl, rfl, rfl⟩
    | placeBet p =>
      cases hc : place_bet s p with
      | error e => exact ⟨q.2, by simp only [step, hc]; exact hq, rfl, rfl, rfl⟩
      | ok r =>
        obtain ⟨bid, s'⟩ := r
        obtain ⟨-, _, _, _, -, -, -, -, -, -, -, -, -, hb⟩ := place_bet_ok_elim hc
        refine ⟨q.2, ?_, rfl, rfl, rfl⟩
        simp only [step, hc, hb]
        exact List.mem_append_left _ hq
    | settleMarket mid key =>
      cases hc : settle_market s mid key with
      | error e => exact ⟨q.2, by simp only [step, hc]; exact hq, rfl, rfl, rfl⟩
      | ok s' =>
        obtain ⟨market, -, -, -, hb, -, -, -⟩ := settle_market_ok_elim hc
        have hmem := List.mem_map_of_mem
          (f := fun q => if q.2.market_id = mid then (q.1, resolveBetDoc key s.now q.2) else q) hq
        beta_reduce at hmem
        by_cases hcond : q.2.market_id = mid
        · rw [if_pos hcond] at hmem
          refine ⟨resolveBetDoc key s.now q.2, ?_, rfl, rfl, rfl⟩
          simp only [step, hc, hb]
          exact hmem
        · rw [if_neg hcond] at hmem
          refine ⟨q.2, ?_, rfl, rfl, rfl⟩
          simp only [step, hc, hb]
          exact hmem

/-- Witness for C6: the first part applied to a concrete bet placement on
market 1's outcome "A" with stake 100. -/
theorem payout_snapshot_and_immutable_witness :
    ∃ (b : BetDoc) (market : MarketDoc) (outcome : OutcomeDoc),
      storeAfterBetA.bets = storeTwoMarkets.bets ++ [(6, b)] ∧
      storeTwoMarkets.markets.lookup betRequestA.market_id = some market ∧
      market.outcomes.find? (fun o => o.key == some betRequestA.outcome_key)
        = some outcome ∧
      outcome.odds = some (.num b.odds) ∧
      b.stake = betRequestA.stake ∧
      b.potential_payout = round2 (b.stake * b.odds) :=
  payout_snapshot_and_immutable.1 storeTwoMarkets betRequestA 6 storeAfterBetA (by rfl)

/-- C7 counterexample: `create_market` checks only field presence, not key
uniqueness, so an input whose two outcomes share the key "A" satisfies every
creation precondition, is accepted, and the persisted market's outcome keys
are *not* unique — refuting the uniqueness conclusion of the claim as
stated. -/
theorem create_market_dup_keys_counterexample :
    dupKeyInput.game_type ∈ (["cricket", "matka", "other"] : List String) ∧
    dupKeyInput.outcomes ≠ [] ∧
    (∀ o ∈ dupKeyInput.outcomes, outcomeComplete o) ∧
    create_market emptyStore dupKeyInput = .ok (0, storeAfterDup) ∧
    ∃ m : MarketDoc, (0, m) ∈ storeAfterDup.markets ∧
      ¬ (m.outcomes.map OutcomeDoc.key).Nodup := by
  have h : create_market emptyStore dupKeyInput = .ok (0, storeAfterDup) := by rfl
  obtain ⟨-, hmk, -, -, -, -⟩ := create_market_ok_elim h
  refine ⟨by decide, by decide, by decide, h,
    ⟨{ game_type := dupKeyInput.game_type, title := dupKeyInput.title,
       outcomes := dupKeyInput.outcomes, status := "open",
       start_time := dupKeyInput.start_time, created_at := emptyStore.now,
       settled_outcome_key := none, settled_at := none }, ?_, ?_⟩⟩
  · rw [hmk]
    exact List.mem_append_right _ (List.mem_singleton.mpr rfl)
  · decide

/-- C7 (amended): for every market creation input with a valid game_type and
at least one outcome carrying key, label and odds fields, the created market
has status `"open"` and its outcomes list is preserved exactly in the given
order; its keys are unique within the market whenever the input's outcome
keys are themselves pairwise distinct (creation does not itself enforce
uniqueness). -/
theorem create_market_valid_input (s : Store) (p : CreateMarket)
    (hg : p.game_type ∈ (["cricket", "matka", "other"] : List String))
    (hne : p.outcomes ≠ [])
    (hcomp : ∀ o ∈ p.outcomes, outcomeComplete o) :
    ∃ (s' : Store) (m : MarketDoc),
      create_market s p = .ok (s.nextId, s') ∧
      s'.markets = s.markets ++ [(s.nextId, m)] ∧
      m.status = "open" ∧
      m.outcomes = p.outcomes ∧
      ((p.outcomes.map OutcomeDoc.key).Nodup → (m.outcomes.map OutcomeDoc.key).Nodup) := by
  have h1 : ¬ p.game_type ∉ (["cricket", "matka", "other"] : List String) :=
    not_not_intro hg
  have h2 : ¬ p.outcomes.isEmpty = true := by
    simpa [List.isEmpty_iff] using hne
  have h3 : ¬ (p.outcomes.any fun o => !(outcomeComplete o)) = true := by
    rw [List.any_eq_true]
    rintro ⟨o, ho, hfo⟩
    rw [Bool.not_eq_true'] at hfo
    rw [hcomp o ho] at hfo
    exact Bool.noConfusion hfo
  have hok : create_market s p = .ok (s.nextId,
      { s with
          markets := s.markets ++ [(s.nextId,
            { game_type := p.game_type, title := p.title, outcomes := p.outcomes,
              status := "open", start_time := p.start_time, created_at := s.now,
              settled_outcome_key := none, settled_at := none })]
          nextId := s.nextId + 1 }) := by
    unfold create_market
    rw [if_neg h1, if_neg h2, if_neg h3]
  exact ⟨_, _, hok, rfl, rfl, rfl, id⟩

/-- Witness for C7's amended theorem at a concrete creation input with two
distinct outcome keys. -/
theorem create_market_valid_input_witness :
    ∃ (s' : Store) (m : MarketDoc),
      create_market emptyStore marketInputAB = .ok (emptyStore.nextId, s') ∧
      s'.markets = emptyStore.markets ++ [(emptyStore.nextId, m)] ∧
      m.status = "open" ∧
      m.outcomes = marketInputAB.outcomes ∧
      ((marketInputAB.outcomes.map OutcomeDoc.key).Nodup →
        (m.outcomes.map OutcomeDoc.key).Nodup) :=
  create_market_valid_input emptyStore marketInputAB (by decide) (by decide) (by decide)

/-- C8 (code behavior at the failing input): the creation endpoint checks
only presence of the odds field, never its magnitude, so an input whose sole
outcome has odds 0.5 is accepted and persisted even though it violates the
`gt=1.0` constraint declared on `Outcome` in `schemas.py`. -/
theorem create_market_accepts_low_odds :
    create_market emptyStore lowOddsInput = .ok (0, storeAfterLowOdds) ∧
    ∃ m : MarketDoc, (0, m) ∈ storeAfterLowOdds.markets ∧
      lowOddsOutcome ∈ m.outcomes ∧ ¬ oddsSchemaOk lowOddsOutcome.odds := by
  have h : create_market emptyStore lowOddsInput = .ok (0, storeAfterLowOdds) := by rfl
  obtain ⟨-, hmk, -, -, -, -⟩ := create_market_ok_elim h
  refine ⟨h,
    ⟨{ game_type := lowOddsInput.game_type, title := lowOddsInput.title,
       outcomes := lowOddsInput.outcomes, status := "open",
       start_time := lowOddsInput.start_time, created_at := emptyStore.now,
       settled_outcome_key := none, settled_at := none }, ?_, ?_, ?_⟩⟩
  · rw [hmk]
    exact List.mem_append_right _ (List.mem_singleton.mpr rfl)
  · exact List.mem_singleton.mpr rfl
  · simp only [lowOddsOutcome, oddsSchemaOk]
    norm_num

/-- C9: settling an open market with a winning key matching none of its
outcome keys still succeeds: the market becomes settled carrying that key as
`settled_outcome_key`, and every bet on the market — whose own outcome key
was validated against the market's outcomes at placement time — transitions
to `"lost"`. -/
theorem settle_unknown_key_all_lost (s : Store) (mid : Nat) (key : String) (m : MarketDoc)
    (hm : s.markets.lookup mid = some m)
    (hopen : m.status = "open")
    (hkey : ∀ o ∈ m.outcomes, o.key ≠ some key)
    (hbets : ∀ q ∈ s.bets, (q : Nat × BetDoc).2.market_id = mid →
      ∃ o ∈ m.outcomes, o.key = some q.2.outcome_key) :
    ∃ s' : Store, settle_market s mid key = .ok s' ∧
      (∃ m' : MarketDoc, s'.markets.lookup mid = some m' ∧ m'.status = "settled" ∧
        m'.settled_outcome_key = some key) ∧
      ∀ q ∈ s.bets, (q : Nat × BetDoc).2.market_id = mid →
        ∃ b' : BetDoc, (q.1, b') ∈ s'.bets ∧ b'.status = "lost" := by
  cases hres : settle_market s mid key with
  | error e =>
    exfalso
    unfold settle_market at hres
    rw [hm] at hres
    simp [hopen] at hres
  | ok s' =>
    obtain ⟨market, hm', -, hmk, hb, -, -, -⟩ := settle_market_ok_elim hres
    rw [hm] at hm'
    injection hm' with hmm
    subst hmm
    refine ⟨s', rfl, ?_, ?_⟩
    · exact ⟨{ m with status := "settled", settled_outcome_key := some key, settled_at := some s.now },
        by rw [hmk, lookup_map_update_self, hm]; rfl, rfl, rfl⟩
    · intro q hq hqmid
      refine ⟨resolveBetDoc key s.now q.2, ?_, ?_⟩
      · rw [hb]
        have hmem := List.mem_map_of_mem
          (f := fun q => if q.2.market_id = mid then (q.1, resolveBetDoc key s.now q.2) else q) hq
        beta_reduce at hmem
        rw [if_pos hqmid] at hmem
        exact hmem
      · obtain ⟨o, ho, hok'⟩ := hbets q hq hqmid
        have hne : q.2.outcome_key ≠ key := by
          intro hcon
          exact hkey o ho (by rw [hok', hcon])
        simp [resolveBetDoc, hne]

/-- Witness for C9: settling market 1 with the unknown key "Z"; the bets on
"A" and "B" both become "lost". -/
theorem settle_unknown_key_all_lost_witness :
    ∃ s' : Store, settle_market storeTwoMarkets 1 "Z" = .ok s' ∧
      (∃ m' : MarketDoc, s'.markets.lookup 1 = some m' ∧ m'.status = "settled" ∧
        m'.settled_outcome_key = some "Z") ∧
      ∀ q ∈ storeTwoMarkets.bets, (q : Nat × BetDoc).2.market_id = 1 →
        ∃ b' : BetDoc, (q.1, b') ∈ s'.bets ∧ b'.status = "lost" :=
  settle_unknown_key_all_lost storeTwoMarkets 1 "Z" marketAB
    (by rfl) (by rfl) (by decide) (by decide)

/-- C10: market creation checks only field presence, so a market whose
outcome carries a non-numeric odds value (JSON null) is accepted; a
subsequent bet on that outcome then fails with the unhandled float-conversion
error, which is not one of the handled HTTP taxonomy errors. -/
theorem null_odds_market_unhandled_error :
    create_market storeOneUser nullOddsInput = .ok (1, storeNullMarket) ∧
    place_bet storeNullMarket
        { user_id := 0, market_id := 1, outcome_key := "x", stake := 10 }
      = .error .conversionError ∧
    ApiError.conversionError.isHandled = false :=
  ⟨by rfl, by rfl, rfl⟩

end Betting
